import Mathlib

/-!  Verification development for the genstruct MOF structure generator
(`genstruct.py`).

The Python source is embedded shallowly: numpy coordinate arrays become
exact rational `Vec3` values, Python objects become Lean structures, and
in-place object mutation becomes explicit state passing.  The Python
`Structure.bonds` attribute holds a *reference* to a shared mutable list,
so the embedding threads an explicit `Heap` (a store of bond tables
addressed by natural-number references) through the operations that touch
it; every other attribute is only ever rebound, never mutated in place,
and is modelled by value.

The helper module `operations` (providing `calc_angle`, `rotation_matrix`,
`length`, `parallel`, `unit_vector` and the `Radii` table) is not among
the repository sources; those definitions are modelled from the spec and
carry a `Modelled from the spec:` doc comment.  Angle values are embedded
as (cosine, sine) pairs so all geometry stays inside ℚ; float comparisons
(`numpy.allclose`) are embedded with their documented tolerances, and
comparisons of Euclidean lengths are embedded as the equivalent
comparisons of squared lengths where the source takes a square root.  -/

namespace Genstruct

/-- Rational model of `numpy.allclose` on scalars with the default
tolerances `rtol = 1e-5`, `atol = 1e-8`: true iff
`|a - b| ≤ atol + rtol * |b|`. -/
def isClose (a b : ℚ) : Bool :=
  decide (|a - b| ≤ 1 / 100000000 + (1 / 100000) * |b|)

/-- Square root on ℚ, exact on rationals whose numerator and denominator
are perfect squares (every concrete input used in this file is of that
form); the float `sqrt` of the source has no exact rational counterpart. -/
def ratSqrt (q : ℚ) : ℚ :=
  if q ≤ 0 then 0 else (Nat.sqrt q.num.toNat : ℚ) / (Nat.sqrt q.den : ℚ)

/-- Model of `numpy.rint` and `numpy.around`: round to the nearest
integer, rounding halves to the nearest even integer. -/
def rintQ (q : ℚ) : ℤ :=
  let n := ⌊q⌋
  let f := q - n
  if f < 1 / 2 then n
  else if 1 / 2 < f then n + 1
  else if Even n then n else n + 1

/-- Exact 3-vector of rationals, embedding the numpy arrays holding
cartesian coordinates and alignment vectors (the constant fourth
homogeneous component of the source's 4-vectors is dropped; all
transforms applied to it are affine, see `Aff`). -/
structure Vec3 where
  x : ℚ
  y : ℚ
  z : ℚ
deriving DecidableEq, Repr

instance : Zero Vec3 := ⟨⟨0, 0, 0⟩⟩

instance : Add Vec3 := ⟨fun a b => ⟨a.x + b.x, a.y + b.y, a.z + b.z⟩⟩

instance : Sub Vec3 := ⟨fun a b => ⟨a.x - b.x, a.y - b.y, a.z - b.z⟩⟩

instance : Neg Vec3 := ⟨fun a => ⟨-a.x, -a.y, -a.z⟩⟩

instance : SMul ℚ Vec3 := ⟨fun c a => ⟨c * a.x, c * a.y, c * a.z⟩⟩

/-- Dot product. -/
def dot (a b : Vec3) : ℚ := a.x * b.x + a.y * b.y + a.z * b.z

/-- Cross product (`numpy.cross`). -/
def cross (a b : Vec3) : Vec3 :=
  ⟨a.y * b.z - a.z * b.y, a.z * b.x - a.x * b.z, a.x * b.y - a.y * b.x⟩

/-- Squared Euclidean norm. -/
def normSq (a : Vec3) : ℚ := dot a a

/-- Modelled from the spec: `length` from the missing `operations` module,
the Euclidean norm of a vector (exact here only when `normSq` is a
perfect rational square, which holds for all concrete inputs used). -/
def vlength (a : Vec3) : ℚ := ratSqrt (normSq a)

/-- Modelled from the spec: `unit_vector` from the missing `operations`
module, `v / length(v)` (the source would produce NaNs on a zero vector;
the zero case is returned unchanged here and never exercised). -/
def unit_vector (v : Vec3) : Vec3 :=
  let n := vlength v
  if n = 0 then v else (1 / n) • v

/-- Componentwise `numpy.allclose` of a vector against the zero vector. -/
def isCloseVecZero (v : Vec3) : Bool :=
  isClose v.x 0 && isClose v.y 0 && isClose v.z 0

/-- Affine transform on 3-space: the embedding of the source's 4×4
homogeneous rotation matrices (linear part plus translation part). -/
structure Aff where
  lin : Vec3 → Vec3
  tr : Vec3

/-- Apply an affine transform to a position vector. -/
def Aff.apply (A : Aff) (v : Vec3) : Vec3 := A.lin v + A.tr

/-- Rotation about the axis `n` (assumed unit) by the angle with cosine
`c` and sine `s`, by the Rodrigues formula; right-handed, so that for the
axis `cross a b` and the angle between `a` and `b` it rotates `a` onto
`b`, which is the property the spec states for the rotation kernel. -/
def rotApply (n : Vec3) (c s : ℚ) (v : Vec3) : Vec3 :=
  c • v + s • cross n v + ((1 - c) * dot n v) • n

/-- Modelled from the spec: `rotation_matrix` from the missing
`operations` module — the rotation matrix for a given axis, angle
(embedded as its cosine/sine pair) and optional fixed pivot point. -/
def rotation_matrix (axis : Vec3) (c s : ℚ) (point : Option Vec3) : Aff :=
  { lin := rotApply axis c s
    tr := match point with
      | none => 0
      | some p => p - rotApply axis c s p }

/-- Modelled from the spec: `calc_angle` from the missing `operations`
module returns the angle in `[0, π]` between two vectors via the
numerically stable formula; it is embedded as the pair
`(cos θ, sin θ) = (a·b / (|a||b|), |a×b| / (|a||b|))` to stay in ℚ. -/
def calc_angle (a b : Vec3) : ℚ × ℚ :=
  let d := vlength a * vlength b
  if d = 0 then (1, 0)
  else (dot a b / d, ratSqrt (normSq (cross a b)) / d)

/-- The source's `np.allclose(angle, 0.)` test on an angle embedded as a
(cosine, sine) pair: the measure `1 - cos θ` is monotone in `θ` on
`[0, π]`, so the test is embedded as `1 - c ≤ 1e-8` (exact inputs used in
this file have either `θ = 0` exactly or `θ` far from `0`). -/
def angle_is_zero (c : ℚ) (_s : ℚ) : Bool :=
  decide (1 - c ≤ 1 / 100000000)

/-- Modelled from the spec: `parallel(a, b, tol)` from the missing
`operations` module — true iff the angle between `a` and `b` is within
`tol` of zero; embedded without square roots as
`sin² θ ≤ tol² and cos θ > 0`. -/
def parallel (a b : Vec3) (tol : ℚ) : Bool :=
  decide (normSq (cross a b) ≤ tol ^ 2 * (normSq a * normSq b) ∧ 0 < dot a b)

/-- Modelled from the spec: the per-element `Radii` table imported by the
source from its missing support modules (van-der-Waals-derived radii in
Å; representative values, with a default for other elements). -/
def Radii (element : String) : ℚ :=
  if element = "H" then 6 / 5
  else if element = "C" then 17 / 10
  else if element = "N" then 31 / 20
  else if element = "O" then 3 / 2
  else if element = "Zn" then 139 / 100
  else 3 / 2

/-- Canonical symmetry label of a bond: a pair of
`(owning-unit internal catalog index, connect-point symmetry tag)` pairs
(the Python code builds it as a sorted two-element list of int pairs, then
freezes it into a tuple). -/
abbrev SymLabel := (ℤ × ℤ) × (ℤ × ℤ)

/-- Strict lexicographic order on integer pairs: the comparison Python
uses when sorting a list of 2-tuples of ints. -/
def pairLt (a b : ℤ × ℤ) : Bool :=
  decide (a.1 < b.1 ∨ (a.1 = b.1 ∧ a.2 < b.2))

/-- `list.sort()` on a two-element Python list of int pairs: swap iff the
second element is strictly below the first. -/
def pySort2 (a b : ℤ × ℤ) : (ℤ × ℤ) × (ℤ × ℤ) :=
  if pairLt b a then (b, a) else (a, b)

/-- Embedding of `Atom`: atomistic data of one atom of a building unit
(the presentation-only fields `force_field_type` and `fnl_group_index`
are omitted; nothing embedded reads them). -/
structure Atom where
  element : String := "X"
  mass : ℚ := 0
  coordinates : Vec3 := 0
  scaled_coords : Option Vec3 := none
  bu_index : Option ℤ := none
  bu_metal : Bool := false
  bonds : List ℤ := []
  connectivity : Option ℤ := none
  index : ℤ := 0
deriving DecidableEq, Repr

instance : Inhabited Atom := ⟨{}⟩

/-- Embedding of `ConnectPoint`: one point of connection of a building
unit together with its alignment vectors and bonding bookkeeping. -/
structure ConnectPoint where
  index : ℤ := 0
  coordinates : Vec3 := 0
  para : Vec3 := 0
  perp : Vec3 := 0
  order : ℕ := 0
  metal : Bool := false
  bu_order : ℕ := 0
  atoms : List Atom := []
  bonded : Bool := false
  bond_from_search : Bool := false
  special : Option ℤ := none
  constraint : Option ℤ := none
  symmetry : ℤ := 1
  bond_label : Option SymLabel := none
deriving DecidableEq, Repr

instance : Inhabited ConnectPoint := ⟨{}⟩

/-- A bond endpoint is either an `Atom` or a `ConnectPoint`; the
embedding replaces the source's `isinstance` dispatch by this tagged
union. -/
inductive BondEnd
  | atomEnd (a : Atom)
  | cpEnd (c : ConnectPoint)
deriving DecidableEq, Repr

/-- Embedding of `Bond`: an intra-building-unit bond between two
endpoints, with its type tag, displacement vector and length. -/
structure Bond where
  frm : BondEnd
  toEnd : BondEnd
  btype : String
  vector : Vec3 := 0
  distance : ℚ := 0
deriving DecidableEq, Repr

/-- Embedding of `BuildingUnit` (its `specialbu` list of unit variants is
kept alongside it in `DbEntry`, since Lean structures cannot nest
recursively). -/
structure BuildingUnit where
  name : String := ""
  index : ℤ := 0
  internal_index : ℤ := 0
  order : ℕ := 0
  topology : String := ""
  metal : Bool := false
  parent : Option String := none
  connect_points : List ConnectPoint := []
  atoms : List Atom := []
  bonds : List Bond := []
  COM : Vec3 := 0
deriving DecidableEq, Repr

instance : Inhabited BuildingUnit := ⟨{}⟩

/-- A catalog entry: a building unit together with its `specialbu` list
of linked unit variants. -/
structure DbEntry where
  bu : BuildingUnit
  specialbu : List BuildingUnit := []
deriving DecidableEq, Repr

/-- Embedding of `Cell`: the periodic boundary bookkeeping.  The source
keeps fixed 3×3 arrays plus a fill counter `index`; only the first
`index` rows are ever read, so the embedding stores exactly the accepted
rows as lists (`Cell.index` is the list length).  `ilattice` is the
matrix `M[:index].I` of the source — the (pseudo-)inverse of the `index`×3
matrix of accepted rows — stored as its list of 3-vector columns. -/
structure Cell where
  lattice : List Vec3 := []
  nlattice : List Vec3 := []
  ilattice : List Vec3 := []
  origin : List Vec3 := [0, 0, 0]
deriving DecidableEq, Repr

/-- Number of accepted lattice vectors (`self.index` of the source). -/
def Cell.index (c : Cell) : ℕ := c.lattice.length

/-- Embedding of `Cell.get_inverse`: `np.matrix(lattice)[:index].I`, the
(pseudo-)inverse of the matrix of accepted rows, as its columns.  For one
row `a` this is `aᵀ/(a·a)`; for two rows the full-row-rank pseudo-inverse
`Aᵀ(AAᵀ)⁻¹`; for three rows the genuine inverse (columns of cross
products over the determinant).  On rank-deficient input (excluded by the
well-formedness hypotheses of the theorems below) numpy's SVD-based
pseudo-inverse has no exact rational counterpart and the value is junk. -/
def get_inverse (lattice : List Vec3) : List Vec3 :=
  match lattice with
  | [] => []
  | [a] => [(1 / dot a a) • a]
  | [a, b] =>
      let d := dot a a * dot b b - dot a b * dot a b
      [(1 / d) • (dot b b • a - dot a b • b),
       (1 / d) • (dot a a • b - dot a b • a)]
  | [a, b, c] =>
      let det := dot a (cross b c)
      [(1 / det) • cross b c, (1 / det) • cross c a, (1 / det) • cross a b]
  | _ => []

/-- Embedding of `Cell.add_vector`: store the vector and its normalized
form in the next free slot and recompute the inverse. -/
def Cell.add_vector (c : Cell) (v : Vec3) : Cell :=
  let lattice := c.lattice ++ [v]
  { c with
    lattice := lattice
    nlattice := c.nlattice ++ [unit_vector v]
    ilattice := get_inverse lattice }

/-- Embedding of `Cell.planar`: whether a (normalized) vector is coplanar
with the first two accepted normalized lattice vectors (triple product
`allclose` to 0).  Only called when exactly two vectors are accepted. -/
def Cell.planar (c : Cell) (v : Vec3) : Bool :=
  isClose (dot v (cross (c.nlattice.getD 0 0) (c.nlattice.getD 1 0))) 0

/-- Embedding of `Cell.valid_vector`: normalize the candidate, reject it
if its dot product with any accepted normalized vector is `allclose` to
1, reject it when two vectors are accepted and it is coplanar with them,
reject everything once three vectors are accepted. -/
def Cell.valid_vector (c : Cell) (v : Vec3) : Bool :=
  let normvect := unit_vector v
  if c.nlattice.any (fun cellv => isClose (dot cellv normvect) 1) then false
  else if c.index = 2 then
    if c.planar normvect then false else true
  else if c.index = 3 then false
  else true

/-- Embedding of `Cell.periodic_shift`: project the vector onto the
fractional coordinates of the accepted (possibly partial) lattice, round
each coordinate to the nearest integer (`np.rint`), and subtract the
corresponding lattice translation; a no-op while no vectors are
accepted. -/
def Cell.periodic_shift (c : Cell) (v : Vec3) : Vec3 :=
  if c.lattice.length = 0 then v
  else
    let parts := List.zip c.ilattice c.lattice
    let shift := parts.foldl
      (fun acc p => acc + ((rintQ (dot v p.1) : ℚ) • p.2)) (0 : Vec3)
    v - shift

/-- Embedding of `Cell.get_scaled`: fractional coordinates, only once the
box is fully periodic. -/
def Cell.get_scaled (c : Cell) (v : Vec3) : Vec3 :=
  if c.index = 3 then
    ⟨dot v (c.ilattice.getD 0 0), dot v (c.ilattice.getD 1 0),
     dot v (c.ilattice.getD 2 0)⟩
  else 0

/-- Embedding of the module-level `valid_bond(bu, cp, bu2, cp2)`: both
points unbonded, the symmetric special/constraint match, and — whenever
`cp.special` is `None` — differing metal flags of the owning units. -/
def valid_bond (bu : BuildingUnit) (cp : ConnectPoint)
    (bu2 : BuildingUnit) (cp2 : ConnectPoint) : Bool :=
  if !cp.bonded && !cp2.bonded then
    if cp.special = cp2.constraint ∨ cp.constraint = cp2.special then
      if cp.special = none then
        if bu.metal = bu2.metal then false else true
      else true
    else false
  else false

/-- Embedding of `Generate.spec_compatible(bond, newbond)`: the search's
pre-check on a (placed point, catalog point) pair. -/
def spec_compatible (bond newbond : ConnectPoint) : Bool :=
  if bond.bonded then false
  else if bond.special = newbond.constraint ∨ newbond.special = bond.constraint then
    if bond.special = none ∧ newbond.special = none ∧ bond.metal = newbond.metal then
      false
    else true
  else false

/-- Embedding of `Generate.get_symmetry_info`: the sorted pair of
`(internal catalog index, symmetry tag)` pairs for the two endpoints of a
forming bond. -/
def get_symmetry_info (bu : BuildingUnit) (cp : ConnectPoint)
    (add_bu : BuildingUnit) (add_cp : ConnectPoint) : SymLabel :=
  pySort2 (bu.internal_index, cp.symmetry) (add_bu.internal_index, add_cp.symmetry)

/-- The branch data `snap_to` computes before touching any atom: whether
the required angle is within tolerance of zero, the (affine) rotation to
apply otherwise, and the residual translation `trans_v`. -/
def snapData (bu : BuildingUnit) (self_point connect_point : ConnectPoint) :
    Bool × Aff × Vec3 :=
  if angle_is_zero (calc_angle self_point.para (-connect_point.para)).1
      (calc_angle self_point.para (-connect_point.para)).2 then
    (true, { lin := id, tr := 0 }, connect_point.coordinates - self_point.coordinates)
  else
    let axis := unit_vector (cross self_point.para connect_point.para)
    let pt := if isCloseVecZero bu.COM then none else some bu.COM
    let R := rotation_matrix axis (calc_angle self_point.para (-connect_point.para)).1
      (calc_angle self_point.para (-connect_point.para)).2 pt
    (false, R, connect_point.coordinates - R.apply self_point.coordinates)

/-- The transformation `snap_to` applies to each connect point of the
moved unit: translation only in the zero-angle branch, otherwise the
rotation applied to the position and to both alignment vectors followed
by the residual translation of the position. -/
def snapCP (bu : BuildingUnit) (self_point connect_point : ConnectPoint)
    (cp : ConnectPoint) : ConnectPoint :=
  match snapData bu self_point connect_point with
  | (true, _, tv) => { cp with coordinates := cp.coordinates + tv }
  | (false, R, tv) =>
      { cp with
        coordinates := R.apply cp.coordinates + tv
        para := R.lin cp.para
        perp := R.lin cp.perp }

/-- The transformation `snap_to` applies to each atom of the moved unit. -/
def snapAtom (bu : BuildingUnit) (self_point connect_point : ConnectPoint)
    (a : Atom) : Atom :=
  match snapData bu self_point connect_point with
  | (true, _, tv) => { a with coordinates := a.coordinates + tv }
  | (false, R, tv) => { a with coordinates := R.apply a.coordinates + tv }

/-- Embedding of `BuildingUnit.snap_to(self_point, connect_point)`:
orient the whole unit so that `self_point` lands on `connect_point`.  If
the angle between `self_point.para` and `-connect_point.para` is within
tolerance of zero, translate only; otherwise rotate about the normalized
cross product of the two parallel vectors (pivoted at the centre of mass
unless it is at the origin) and translate the rotated `self_point` onto
`connect_point`. -/
def snap_to (bu : BuildingUnit) (self_point connect_point : ConnectPoint) :
    BuildingUnit :=
  { bu with
    atoms := bu.atoms.map (snapAtom bu self_point connect_point)
    connect_points := bu.connect_points.map (snapCP bu self_point connect_point) }

/-- Embedding of `BuildingUnit.align_to(self_point, connect_point)`:
rotate the unit about `connect_point.para` (pivoted at `self_point`) so
the two perpendicular vectors become parallel, flipping the sign of the
angle when the first choice fails to bring them within the tolerance
`min(angle, 0.02)` of parallel (the constant 0.02 rad is mapped to
`1 - cos 0.02 ≈ 1/5000` in the cosine-measure encoding of angles). -/
def align_to (bu : BuildingUnit) (self_point connect_point : ConnectPoint) :
    BuildingUnit :=
  let cs := calc_angle self_point.perp connect_point.perp
  if angle_is_zero cs.1 cs.2 then bu
  else
    let axis := connect_point.para
    let R := rotation_matrix axis cs.1 cs.2 (some self_point.coordinates)
    let tol := min (1 - cs.1) (1 / 5000)
    let check := calc_angle (R.lin self_point.perp) connect_point.perp
    let R2 := if decide (1 - check.1 ≤ tol) then R
      else rotation_matrix axis cs.1 (-cs.2) (some self_point.coordinates)
    { bu with
      atoms := bu.atoms.map (fun a => { a with coordinates := R2.apply a.coordinates })
      connect_points := bu.connect_points.map (fun cp =>
        { cp with
          coordinates := R2.apply cp.coordinates
          para := R2.lin cp.para
          perp := R2.lin cp.perp }) }

/-- Embedding of `BuildingUnit.calculate_COM`: mass-weighted average of
the atom positions. -/
def calculate_COM (bu : BuildingUnit) : BuildingUnit :=
  let total := (bu.atoms.map (fun a => a.mass)).sum
  let weighted := (bu.atoms.map (fun a => a.mass • a.coordinates)).foldl
    (fun acc v => acc + v) (0 : Vec3)
  { bu with COM := if total = 0 then 0 else (1 / total) • weighted }

/-- One entry of the structure-wide bond table
`(from-index, to-index, type, distance)`. -/
abbrev BondTuple := ℤ × ℤ × String × ℚ

/-- The store of structure-wide bond tables.  The Python attribute
`Structure.bonds` is a reference to a mutable list; `Structure.__copy__`
copies `self.__dict__` shallowly and its block re-referencing
`self.bonds` is commented out, so parent and copy can end up sharing one
table.  The embedding therefore stores the tables in this heap and lets
each `Structure` carry a reference (`bondsRef`) into it. -/
abbrev Heap := List (List BondTuple)

/-- Read a bond table from the heap. -/
def heapGet (h : Heap) (r : ℕ) : List BondTuple := h.getD r []

/-- Append entries to the bond table a reference points at. -/
def heapAppend (h : Heap) (r : ℕ) (xs : List BondTuple) : Heap :=
  h.set r (heapGet h r ++ xs)

/-- Embedding of `Structure`: the growing assembly.  `bonds` is the heap
reference described at `Heap`; `debug_lines` (an append-only string never
read back by the core) is omitted. -/
structure Structure where
  building_units : List BuildingUnit := []
  cell : Cell := {}
  natoms : ℤ := 0
  bondsRef : ℕ := 0
  sym_id : List SymLabel := []
deriving DecidableEq, Repr

/-- Embedding of `Structure.__init__`: fresh empty structure, with a
fresh (empty) global bond table allocated on the heap. -/
def newStructure (h : Heap) : Heap × Structure :=
  (h ++ [[]], { bondsRef := h.length })

/-- The building unit at a given placement position. -/
def getBU (s : Structure) (i : ℕ) : BuildingUnit :=
  s.building_units.getD i default

/-- The connect point at placement position `i`, list position `j`. -/
def getCP (s : Structure) (i j : ℕ) : ConnectPoint :=
  (getBU s i).connect_points.getD j default

/-- Write back a connect point at placement position `i`, list position
`j` (the embedding of mutating a `ConnectPoint` object in place). -/
def setCP (s : Structure) (i j : ℕ) (cp : ConnectPoint) : Structure :=
  { s with
    building_units := s.building_units.set i
      { getBU s i with connect_points := (getBU s i).connect_points.set j cp } }

/-- Embedding of `Structure.atom_min_img_shift(pos1, pos2)`: shift `pos2`
to within the periodic boundaries of `pos1` using the current (possibly
partial) lattice; identity while no vectors are accepted. -/
def atom_min_img_shift (s : Structure) (pos1 pos2 : Vec3) : Vec3 :=
  if s.cell.index ≠ 0 then
    let fpos1 := s.cell.ilattice.map (dot pos1)
    let fpos2 := s.cell.ilattice.map (dot pos2)
    let rdist := (List.zip fpos1 fpos2).map (fun p => (rintQ (p.1 - p.2) : ℚ))
    if s.cell.index < 3 then
      let shift := (List.zip rdist s.cell.lattice).foldl
        (fun acc p => acc + p.1 • p.2) (0 : Vec3)
      pos2 + shift
    else
      (List.zip ((List.zip fpos2 rdist).map (fun p => p.1 + p.2)) s.cell.lattice).foldl
        (fun acc p => acc + p.1 • p.2) (0 : Vec3)
  else pos2

/-- Embedding of `Structure.min_img_shift(atom)`: every atom of the
structure (element paired with its position, in building-unit order),
shifted to within the periodic boundaries of the given position. -/
def min_img_shift (s : Structure) (atomPos : Vec3) : List (String × Vec3) :=
  if s.cell.index ≠ 0 then
    let fatom := s.cell.ilattice.map (dot atomPos)
    s.building_units.flatMap (fun bu => bu.atoms.map (fun a =>
      let fcoord := s.cell.ilattice.map (dot a.coordinates)
      let rdist := (List.zip fatom fcoord).map (fun p => (rintQ (p.1 - p.2) : ℚ))
      if s.cell.index < 3 then
        let shift := (List.zip rdist s.cell.lattice).foldl
          (fun acc p => acc + p.1 • p.2) (0 : Vec3)
        (a.element, a.coordinates + shift)
      else
        (a.element,
         (List.zip ((List.zip fcoord rdist).map (fun p => p.1 + p.2)) s.cell.lattice).foldl
           (fun acc p => acc + p.1 • p.2) (0 : Vec3))))
  else
    s.building_units.flatMap (fun bu => bu.atoms.map (fun a => (a.element, a.coordinates)))

/-- Embedding of `Structure.overlap_bu(bu)`: true iff some atom of `bu`
comes closer to a non-excluded atom of the structure (in minimum-image
position) than the scaled radii sum `(Radii + Radii) * 0.004`; the
source's comparison of a Euclidean distance is embedded as the equivalent
comparison of squares. -/
def overlap_bu (s : Structure) (bu : BuildingUnit) : Bool :=
  let sf : ℚ := 1 / 250
  bu.atoms.any (fun atom =>
    let pairs := min_img_shift s atom.coordinates
    let excl := atom.index :: atom.bonds
    (List.range pairs.length).any (fun idx =>
      let p := pairs.getD idx ("X", 0)
      decide ((idx : ℤ) ∉ excl) &&
        decide (normSq (atom.coordinates - p.2) <
          ((Radii atom.element + Radii p.1) * sf) ^ 2)))

/-- Embedding of `Structure.is_aligned(cp1, cp2)`: the two parallel
vectors anti-parallel and the two perpendicular vectors parallel, within
tolerance 0.2. -/
def is_aligned (cp1 cp2 : ConnectPoint) : Bool :=
  parallel (-cp1.para) cp2.para (1 / 5) && parallel cp1.perp cp2.perp (1 / 5)

/-- Embedding of `Structure.saturated()`: every connect point of every
placed unit is bonded. -/
def saturated (s : Structure) : Bool :=
  s.building_units.all (fun bu => bu.connect_points.all (fun cp => cp.bonded))

/-- Embedding of `Structure.update_connectivities(bu, cp, add_bu,
add_cp)`: compute the canonical symmetry label exactly as the source
writes it at this second site, mark both points bonded and labelled, fold
the newly placed unit's purely atomic bonds into the global bond table,
and append an inter-unit atom bond for every close atom pair spanned by
the two points' atom lists (distance below `(Radii + Radii) * 0.6`,
embedded as the equivalent squared comparison).  The source also appends
the partner's index to each such atom's own `bonds` list through shared
`Atom` references; no embedded claim observes those per-atom lists after
bond formation, and every concrete input used below has empty
`cp.atoms`, so that mutation is not modelled.  `cp` and `add_cp` are
addressed by (placement position, list position) so the mutation can be
written back; `bu` and `add_bu` are passed by value as in the source. -/
def update_connectivities (h : Heap) (s : Structure) (bu : BuildingUnit)
    (i1 j1 : ℕ) (add_bu : BuildingUnit) (i2 j2 : ℕ) : Heap × Structure :=
  let sf : ℚ := 3 / 5
  let cp := getCP s i1 j1
  let add_cp := getCP s i2 j2
  let symmetry_label :=
    pySort2 (bu.internal_index, cp.symmetry) (add_bu.internal_index, add_cp.symmetry)
  let s1 := setCP s i1 j1 { cp with bonded := true, bond_label := some symmetry_label }
  let s2 := setCP s1 i2 j2
    { add_cp with bonded := true, bond_label := some symmetry_label }
  let atomBonds := add_bu.bonds.filterMap (fun b =>
    match b.frm, b.toEnd with
    | BondEnd.atomEnd a1, BondEnd.atomEnd a2 =>
        some (a1.index, a2.index, b.btype, b.distance)
    | _, _ => none)
  let interBonds := cp.atoms.flatMap (fun atm =>
    add_cp.atoms.filterMap (fun atm2 =>
      let shiftcoord := atom_min_img_shift s atm.coordinates atm2.coordinates
      let dsq := normSq (atm.coordinates - shiftcoord)
      if dsq < ((Radii atm.element + Radii atm2.element) * sf) ^ 2 then
        some (atm.index, atm2.index, "S", ratSqrt dsq)
      else none))
  (heapAppend h s.bondsRef (atomBonds ++ interBonds), s2)

/-- The ordered pairs `itertools.combinations(xs, 2)` iterates over. -/
def pairCombos : List α → List (α × α)
  | [] => []
  | x :: xs => xs.map (fun y => (x, y)) ++ pairCombos xs

/-- One candidate pair of `Structure.bonding`'s scan, reading the current
state: compatibility, geometric alignment, then either a local bond (the
minimum-image displacement `allclose` to zero length, with `atol = 0.2`,
embedded as the squared comparison), or a new periodic vector (recording
its discovery origin) plus the bond, or nothing. -/
def bonding_pair (hs : Heap × Structure) (a1 a2 : ℕ × ℕ) : Heap × Structure :=
  let h := hs.1
  let s := hs.2
  let cp1 := getCP s a1.1 a1.2
  let cp2 := getCP s a2.1 a2.2
  let bu1 := getBU s cp1.bu_order
  let bu2 := getBU s cp2.bu_order
  if valid_bond bu1 cp1 bu2 cp2 then
    if is_aligned cp1 cp2 then
      let dvect := cp2.coordinates - cp1.coordinates
      let svect := s.cell.periodic_shift dvect
      if normSq svect ≤ (1 / 5) ^ 2 then
        let hs1 := update_connectivities h s bu1 a1.1 a1.2 bu2 a2.1 a2.2
        let s1 := setCP hs1.2 a1.1 a1.2
          { getCP hs1.2 a1.1 a1.2 with bond_from_search := true }
        let s2 := setCP s1 a2.1 a2.2
          { getCP s1 a2.1 a2.2 with bond_from_search := true }
        (hs1.1, s2)
      else if s.cell.valid_vector dvect then
        let cell1 := { s.cell with
          origin := s.cell.origin.set s.cell.index cp1.coordinates }
        let sv := { s with cell := cell1.add_vector dvect }
        let hs1 := update_connectivities h sv bu1 a1.1 a1.2 bu2 a2.1 a2.2
        let s1 := setCP hs1.2 a1.1 a1.2
          { getCP hs1.2 a1.1 a1.2 with bond_from_search := true }
        let s2 := setCP s1 a2.1 a2.2
          { getCP s1 a2.1 a2.2 with bond_from_search := true }
        (hs1.1, s2)
      else (h, s)
    else (h, s)
  else (h, s)

/-- Embedding of `Structure.bonding()`: scan every unordered pair of
connect points (in `itertools.combinations` order over the snapshot of
positions; later pairs see the mutations of earlier ones, as the Python
objects do). -/
def bonding (h : Heap) (s : Structure) : Heap × Structure :=
  let addrs := (List.range s.building_units.length).flatMap (fun i =>
    (List.range (getBU s i).connect_points.length).map (fun j => (i, j)))
  (pairCombos addrs).foldl (fun hs p => bonding_pair hs p.1 p.2) (h, s)

/-- Embedding of `Structure.insert(bu, bond, add_bu, add_bond)`: append
the new unit, `snap_to` then `align_to` it onto the target point, assign
it the next placement order, offset each of its atoms' global index by
the current atom count — the source's companion loop
`for bidx in atom.bonds: bidx += self.natoms` rebinds the loop variable
and leaves the per-atom bond lists unchanged, which the embedding
reproduces — update the atom count, form the bond, and run the bonding
scan.  Because the unit's bond endpoints and connect-point atom lists
reference the very `Atom` objects being re-indexed, the same index
offset is applied to them here (the value embedding of that shared
mutation).  The existing point is addressed by `(i1, j1)`; `j2` is the list
position of `add_bond` within `add_bu`.  (`debug_xyz` only appends to the
debug trace and is omitted.) -/
def insert (h : Heap) (s : Structure) (i1 j1 : ℕ) (add_bu : BuildingUnit)
    (j2 : ℕ) : Heap × Structure :=
  let bond := getCP s i1 j1
  let add_bond := add_bu.connect_points.getD j2 default
  let bu1 := snap_to add_bu add_bond bond
  let order := s.building_units.length
  let bu2 := { bu1 with
    order := order
    connect_points := bu1.connect_points.map (fun cp => { cp with bu_order := order }) }
  let bu3 := align_to bu2 (bu2.connect_points.getD j2 default) bond
  let offEnd := fun (e : BondEnd) =>
    match e with
    | BondEnd.atomEnd a => BondEnd.atomEnd { a with index := a.index + s.natoms }
    | BondEnd.cpEnd cc => BondEnd.cpEnd cc
  let bu4 := { bu3 with
    atoms := bu3.atoms.map (fun a => { a with index := a.index + s.natoms })
    bonds := bu3.bonds.map (fun b => { b with frm := offEnd b.frm, toEnd := offEnd b.toEnd })
    connect_points := bu3.connect_points.map (fun cp =>
      { cp with atoms := cp.atoms.map (fun a => { a with index := a.index + s.natoms }) }) }
  let s1 := { s with
    building_units := s.building_units ++ [bu4]
    natoms := s.natoms + (bu4.atoms.length : ℤ) }
  let cbu := getBU s i1
  let hs1 := update_connectivities h s1 cbu i1 j1 bu4 order j2
  bonding hs1.1 hs1.2

/-- Embedding of `Atom.__copy__`: standard data shared, `bonds` reset. -/
def copyAtomF (a : Atom) : Atom := { a with bonds := [] }

/-- Embedding of `ConnectPoint.__copy__`: standard data shared, `atoms`
reset. -/
def copyCPF (c : ConnectPoint) : ConnectPoint := { c with atoms := [] }

/-- Embedding of `Structure.__copy__`: rebuild every building unit from
fresh atom and connect-point copies matched by index (logging "problem
copying atoms" / "problem copying connect points" when an index matches
no copy or several, and proceeding with the first match, exactly as
`cat = cat[0]` does after the `error(...)` log), rebuild each bond's
endpoints from the fresh copies, and deep-copy the cell.  The duplicate's
remaining attributes come from the shallow `__dict__` copy — in
particular `bondsRef` is the *same* heap reference as the parent's, since
the source block that would rebuild `self.bonds` is commented out. -/
def copyStructure (s : Structure) : List String × Structure :=
  let cats := s.building_units.flatMap (fun bu => bu.atoms.map copyAtomF)
  let step := fun (acc : List String × List BuildingUnit) (bu : BuildingUnit) =>
    let ccps := bu.connect_points.map copyCPF
    let atomsRes := bu.atoms.map (fun atm =>
      let cat := cats.filter (fun i => i.index == atm.index)
      (cat.length, { cat.headD default with bonds := atm.bonds }))
    let errs1 := acc.1 ++ atomsRes.filterMap (fun r =>
      if r.1 = 0 ∨ 1 < r.1 then some "problem copying atoms" else none)
    let cpsRes := bu.connect_points.map (fun cp =>
      let ccp := ccps.filter (fun i => i.index == cp.index)
      let catoms := cp.atoms.flatMap (fun cpatm =>
        cats.filter (fun ca => ca.index == cpatm.index))
      (ccp.length, { ccp.headD default with atoms := catoms }))
    let errs2 := errs1 ++ cpsRes.filterMap (fun r =>
      if r.1 = 0 ∨ 1 < r.1 then some "problem copying connect points" else none)
    let newBonds := bu.bonds.map (fun bond =>
      let pick := fun (e : BondEnd) =>
        match e with
        | BondEnd.cpEnd c =>
            BondEnd.cpEnd ((ccps.filter (fun cp => cp.index == c.index)).headD default)
        | BondEnd.atomEnd a =>
            BondEnd.atomEnd ((cats.filter (fun ax => ax.index == a.index)).headD default)
      { bond with frm := pick bond.frm, toEnd := pick bond.toEnd })
    let res := (errs2, acc.2 ++ [{ bu with
      atoms := atomsRes.map (fun r => r.2)
      connect_points := cpsRes.map (fun r => r.2)
      bonds := newBonds }])
    res
  let res := s.building_units.foldl step ([], [])
  (res.1, { s with building_units := res.2 })

instance : Inhabited DbEntry := ⟨{ bu := {} }⟩

/-- Embedding of the parent-linking loop of `Database.readfile`: Python's
`for ind, bu in enumerate(self)` iterates the live list, so after
`self.pop(ind)` the next iteration reads position `ind + 1` of the
modified list.  For a unit with a parent name, every same-named entry is
collected; when there is not exactly one, the message is *logged* with
`logging.error` (which does not raise) and execution continues, appending
a deep copy of the unit to the `specialbu` list of the first match and
popping the unit.  (With zero matches `parent[0]` would raise IndexError;
that case is not exercised here.) -/
def db_link_loop (errs : List String) (lst : List DbEntry) (i : ℕ) :
    List String × List DbEntry :=
  if hlt : i < lst.length then
    let e := lst.get ⟨i, hlt⟩
    match e.bu.parent with
    | none => db_link_loop errs lst (i + 1)
    | some pname =>
        let parentMatches := lst.filter (fun x => x.bu.name == pname)
        let errs1 := if parentMatches.length ≠ 1 then
            errs ++ ["Multiple building units with the same name!"]
          else errs
        let j := lst.findIdx (fun x => x.bu.name == pname)
        let pj := lst.getD j default
        let lst1 := lst.set j { pj with specialbu := pj.specialbu ++ [e.bu] }
        db_link_loop errs1 (lst1.eraseIdx i) (i + 1)
  else (errs, lst)
termination_by lst.length - i
decreasing_by
  · omega
  · simp only [List.length_eraseIdx, List.length_set, hlt, if_true]
    omega

/-- The parent-linking phase of `Database.readfile`, from the parsed
entry list. -/
def readfile_link (entries : List DbEntry) : List String × List DbEntry :=
  db_link_loop [] entries 0

/-- Embedding of `Structure.get_scaled()`: attach fractional coordinates
to every atom. -/
def get_scaled_structure (s : Structure) : Structure :=
  { s with building_units := s.building_units.map (fun bu =>
      { bu with atoms := bu.atoms.map (fun a =>
          { a with scaled_coords := some (s.cell.get_scaled a.coordinates) }) }) }

/-- Embedding of `Generate.random_insert` for a given choice of seed unit
(the uniform random choice over the catalog is the caller's parameter):
reset the placement order, allocate a fresh structure, re-index the
atoms sequentially while counting them, fold the unit's purely atomic
bonds into the fresh global bond table, and zero every connect point's
unit order.  The bond endpoints alias the atoms whose indices were just
rewritten to `0..n-1` — the same values the parser assigned — so the
endpoint indices are used as stored. -/
def random_insert (h : Heap) (bu : BuildingUnit) : Heap × Structure :=
  let bu0 := { bu with order := 0 }
  let p := newStructure h
  let atoms := bu0.atoms.enum.map (fun ka => { ka.2 with index := (ka.1 : ℤ) })
  let atomBonds := bu0.bonds.filterMap (fun b =>
    match b.frm, b.toEnd with
    | BondEnd.atomEnd a1, BondEnd.atomEnd a2 =>
        some (a1.index, a2.index, b.btype, b.distance)
    | _, _ => none)
  let bu1 := { bu0 with
    atoms := atoms
    connect_points := bu0.connect_points.map (fun cp => { cp with bu_order := 0 }) }
  (heapAppend p.1 p.2.bondsRef atomBonds,
   { p.2 with building_units := [bu1], natoms := (atoms.length : ℤ) })

/-- Embedding of `Generate.gen_bondlist`: all pairs of an open point of
the structure with a catalog point (`itertools.product` order); the
source then pops every pair failing `spec_compatible`, leaving exactly
this filter. -/
def gen_bondlist (bonds newbonds : List ConnectPoint) :
    List (ConnectPoint × ConnectPoint) :=
  (bonds.flatMap (fun b => newbonds.map (fun nb => (b, nb)))).filter
    (fun p => spec_compatible p.1 p.2)

/-- Outcome of a run of the growth search: the emitted structure, the
structure-count cap, frontier exhaustion, or exhaustion of the fuel that
makes the source's unbounded `while` loop a total function. -/
inductive SearchResult
  | found (s : Structure)
  | cappedOut
  | exhausted
  | fuelOut
deriving DecidableEq, Repr

/-- Intermediate result of the per-generation loops: an early `return`
of the source (success or cap), or the updated heap, symmetry tracker
and next frontier. -/
inductive StepRes
  | stop (r : SearchResult)
  | cont (h : Heap) (symtrack : List (List SymLabel)) (add_list : List Structure)
deriving DecidableEq, Repr

/-- Embedding of the inner candidate loop of
`Generate.exhaustive_sampling` (`for bond in bondlist:`) for one frontier
structure: copy the parent, look up the points by their recorded orders,
deep-copy the catalog unit, compute the appended symmetry id, skip the
candidate if the id sequence was already seen this generation, otherwise
insert, discard on overlap, return the first saturated fully periodic
structure, and stop the whole search when the number of structures in
the current frontier (`nstructs`) plus those accumulated for the next
one exceeds 20000. -/
def try_bonds (blocks : List BuildingUnit) (h : Heap) (nstructs : ℕ)
    (st : Structure) (cands : List (ConnectPoint × ConnectPoint))
    (symtrack : List (List SymLabel)) (add_list : List Structure) : StepRes :=
  match cands with
  | [] => .cont h symtrack add_list
  | bond :: rest =>
      let newstruct := (copyStructure st).2
      let cbu := newstruct.building_units.getD bond.1.bu_order default
      let cbond := cbu.connect_points.getD bond.1.order default
      let add_bu := blocks.getD bond.2.bu_order default
      let add_bond := add_bu.connect_points.getD bond.2.order default
      let add_sym := get_symmetry_info cbu cbond add_bu add_bond
      let new_id := newstruct.sym_id ++ [add_sym]
      if new_id ∈ symtrack then
        try_bonds blocks h nstructs st rest symtrack add_list
      else
        let hs := insert h newstruct bond.1.bu_order bond.1.order add_bu bond.2.order
        let ns := hs.2
        let placed := ns.building_units.getD (ns.building_units.length - 1) default
        if overlap_bu ns placed then
          if 20000 < add_list.length + nstructs then .stop .cappedOut
          else try_bonds blocks hs.1 nstructs st rest symtrack add_list
        else if saturated ns && ns.cell.index == 3 then
          .stop (.found (get_scaled_structure ns))
        else
          let add_list1 := add_list ++ [{ ns with sym_id := new_id }]
          let symtrack1 := symtrack ++ [new_id]
          if 20000 < add_list1.length + nstructs then .stop .cappedOut
          else try_bonds blocks hs.1 nstructs st rest symtrack1 add_list1

/-- Embedding of the per-structure loop of one generation
(`for id, struct in enumerate(structures):`): enumerate each frontier
structure's open/catalog bond pairs and run the candidate loop,
propagating an early return. -/
def gen_structs (blocks : List BuildingUnit) (h : Heap) (nstructs : ℕ)
    (pending : List Structure) (symtrack : List (List SymLabel))
    (add_list : List Structure) : StepRes :=
  match pending with
  | [] => .cont h symtrack add_list
  | st :: rest =>
      let bonds := st.building_units.flatMap (fun bu => bu.connect_points)
      let newbonds := blocks.flatMap (fun bu => bu.connect_points)
      let bondlist := gen_bondlist bonds newbonds
      match try_bonds blocks h nstructs st bondlist symtrack add_list with
      | .stop r => .stop r
      | .cont h1 symtrack1 add_list1 =>
          gen_structs blocks h1 nstructs rest symtrack1 add_list1

/-- Embedding of the `while not done:` loop of
`Generate.exhaustive_sampling`: run one generation with a fresh symmetry
tracker; an early return propagates; an empty next frontier is
exhaustion; otherwise the next frontier becomes the current one.  `fuel`
bounds the number of generations so the function is total; every theorem
below quantifies over it. -/
def sampling_loop (fuel : ℕ) (blocks : List BuildingUnit) (h : Heap)
    (structures : List Structure) : SearchResult :=
  match fuel with
  | 0 => .fuelOut
  | fuel + 1 =>
      match gen_structs blocks h structures.length structures [] [] with
      | .stop r => r
      | .cont h1 _ add_list =>
          if add_list.isEmpty then .exhausted
          else sampling_loop fuel blocks h1 add_list

/-- Embedding of `Generate.exhaustive_sampling(bu_db)`: assemble the
block list (catalog units plus their variants), assign internal indices
and per-block connect-point orders, seed with the chosen unit
(`random.choice` is the `choiceIdx` parameter) and run the generation
loop. -/
def exhaustive_sampling (fuel : ℕ) (bu_db : List DbEntry) (choiceIdx : ℕ) :
    SearchResult :=
  let blocks0 := bu_db.map (fun e => e.bu) ++ bu_db.flatMap (fun e => e.specialbu)
  let blocks := blocks0.enum.map (fun idbu =>
    { idbu.2 with
      internal_index := (idbu.1 : ℤ)
      connect_points := idbu.2.connect_points.map (fun cp =>
        { cp with bu_order := idbu.1 }) })
  let seedPair := random_insert [] (blocks.getD choiceIdx default)
  sampling_loop fuel blocks seedPair.1 [seedPair.2]

/-- Connect point used in the C3 counterexample: unbonded, no tags, on a
metal unit. -/
def c3cpA : ConnectPoint :=
  { special := none, constraint := none, bonded := false, metal := true }

/-- Connect point used in the C3 counterexample: *bonded*, no tags, on a
non-metal unit. -/
def c3cpB : ConnectPoint :=
  { special := none, constraint := none, bonded := true, metal := false }

/-- Metal connect point with a special tag, for the C3 witness. -/
def c3cpM : ConnectPoint :=
  { special := some 2, constraint := none, bonded := false, metal := true }

/-- Organic connect point constrained to special tag 2, for the C3
witness. -/
def c3cpO : ConnectPoint :=
  { special := none, constraint := some 2, bonded := false, metal := false }

/-- Metal building unit for the C3 witness. -/
def c3buM : BuildingUnit := { metal := true }

/-- Organic building unit for the C3 witness. -/
def c3buO : BuildingUnit := { metal := false }

/-- Cell with one accepted lattice vector (1,0,0), for the C4
counterexample. -/
def c4cell1 : Cell :=
  { lattice := [⟨1, 0, 0⟩], nlattice := [⟨1, 0, 0⟩], ilattice := [⟨1, 0, 0⟩] }

/-- Fully periodic cell (three accepted vectors), for the C4 witness. -/
def c4cell3 : Cell :=
  { lattice := [⟨1, 0, 0⟩, ⟨0, 1, 0⟩, ⟨0, 0, 1⟩]
    nlattice := [⟨1, 0, 0⟩, ⟨0, 1, 0⟩, ⟨0, 0, 1⟩]
    ilattice := [⟨1, 0, 0⟩, ⟨0, 1, 0⟩, ⟨0, 0, 1⟩] }

/-- Well-formedness of a cell state as the source maintains it: the
stored inverse is the (pseudo-)inverse of the accepted rows, and the rows
have full rank (nonzero squared norm, Gram determinant, determinant, for
one, two, three rows respectively); at most three rows exist. -/
def cellWF (c : Cell) : Bool :=
  (c.ilattice == get_inverse c.lattice) &&
  (match c.lattice with
   | [] => true
   | [a] => decide (dot a a ≠ 0)
   | [a, b] => decide (dot a a * dot b b - dot a b * dot a b ≠ 0)
   | [a, b, c3] => decide (dot a (cross b c3) ≠ 0)
   | _ => false)

/-- Concrete well-formed one-vector cell for the C8 witness. -/
def c8cellW : Cell :=
  { lattice := [⟨2, 0, 0⟩], nlattice := [⟨1, 0, 0⟩], ilattice := [⟨1 / 2, 0, 0⟩] }

/-- Moved-side connect point for the C5 witness (parallel vector exactly
opposite the target's, so the required angle is zero). -/
def c5pW : ConnectPoint :=
  { coordinates := ⟨1, 0, 0⟩, para := ⟨1, 0, 0⟩, perp := ⟨0, 0, 1⟩ }

/-- Target connect point for the C5 witness. -/
def c5qW : ConnectPoint :=
  { coordinates := ⟨4, 2, 0⟩, para := ⟨-1, 0, 0⟩, perp := ⟨0, 0, 1⟩ }

/-- Building unit for the C5 witness. -/
def c5buW : BuildingUnit :=
  { atoms := [{ element := "C", mass := 1, coordinates := ⟨5, 0, 0⟩ }]
    connect_points := [c5pW]
    COM := ⟨5, 0, 0⟩ }

/-- Moved-side connect point for the C5 counterexample. -/
def c5pX : ConnectPoint :=
  { coordinates := ⟨0, 0, 0⟩, para := ⟨1, 0, 0⟩, perp := ⟨0, 0, 1⟩ }

/-- Target connect point for the C5 counterexample: its parallel vector
makes a genuine angle with the moved point's. -/
def c5qX : ConnectPoint :=
  { coordinates := ⟨0, 0, 0⟩, para := ⟨3 / 5, 4 / 5, 0⟩, perp := ⟨0, 0, 1⟩ }

/-- Building unit (centre of mass at the origin) for the C5
counterexample. -/
def c5buX : BuildingUnit :=
  { atoms := [{ element := "C", mass := 1, coordinates := ⟨0, 0, 0⟩ }]
    connect_points := [c5pX]
    COM := ⟨0, 0, 0⟩ }

/-- A connect point marked bonded and labelled — the mutation
`update_connectivities` performs on each of the two joined points. -/
def bondedWith (cp : ConnectPoint) (lab : SymLabel) : ConnectPoint :=
  { cp with bonded := true, bond_label := some lab }

/-- Two-unit structure for the C10 witness. -/
def c10s : Structure :=
  { building_units :=
      [{ internal_index := 5, connect_points := [{ symmetry := 3 }] },
       { internal_index := 2, connect_points := [{ symmetry := 7 }] }]
    natoms := 0
    bondsRef := 0 }

/-- First label-argument unit for the C10 witness. -/
def c10buA : BuildingUnit := { internal_index := 5 }

/-- Second label-argument unit for the C10 witness. -/
def c10buB : BuildingUnit := { internal_index := 2 }

/-- Heap for the concrete insertion evaluations: one empty global bond
table at reference 0. -/
def egHeap : Heap := [[]]

/-- A one-unit metal structure (two atoms, one open connect point) used
as the concrete parent for the insertion evaluations. -/
def egS : Structure :=
  { building_units :=
      [{ name := "M", metal := true, internal_index := 0
         atoms :=
           [{ element := "C", mass := 1, coordinates := ⟨0, 0, 0⟩, index := 0 },
            { element := "C", mass := 1, coordinates := ⟨10, 0, 0⟩, index := 1 }]
         connect_points :=
           [{ index := 0, coordinates := ⟨0, 0, 0⟩, para := ⟨1, 0, 0⟩,
              perp := ⟨0, 0, 1⟩, order := 0, bu_order := 0, metal := true }]
         COM := ⟨5, 0, 0⟩ }]
    natoms := 2
    bondsRef := 0 }

/-- The organic unit inserted in the concrete evaluations: two atoms
bonded to each other (atom indices 0 and 1, each holding the other in
its `bonds` list), one connect point whose parallel vector is exactly
opposite the target's. -/
def egAddBU : BuildingUnit :=
  { name := "L", metal := false, internal_index := 1
    atoms :=
      [{ element := "C", mass := 1, coordinates := ⟨2, 0, 0⟩, index := 0, bonds := [1] },
       { element := "C", mass := 1, coordinates := ⟨3, 0, 0⟩, index := 1, bonds := [0] }]
    connect_points :=
      [{ index := 0, coordinates := ⟨2, 0, 0⟩, para := ⟨-1, 0, 0⟩,
         perp := ⟨0, 0, 1⟩, order := 0 }]
    bonds :=
      [{ frm := BondEnd.atomEnd
           { element := "C", mass := 1, coordinates := ⟨2, 0, 0⟩, index := 0, bonds := [1] }
         toEnd := BondEnd.atomEnd
           { element := "C", mass := 1, coordinates := ⟨3, 0, 0⟩, index := 1, bonds := [0] }
         btype := "S", vector := ⟨1, 0, 0⟩, distance := 1 }]
    COM := ⟨5 / 2, 0, 0⟩ }

/-- First of two same-named catalog entries for the C9 evaluation. -/
def c9dbA1 : DbEntry := { bu := { name := "A", index := 0 } }

/-- Second of two same-named catalog entries for the C9 evaluation. -/
def c9dbA2 : DbEntry := { bu := { name := "A", index := 1 } }

/-- A unit whose parent name "A" is carried by both entries above. -/
def c9dbB : DbEntry := { bu := { name := "B", index := 2, parent := some "A" } }

/-- A structure whose single unit holds two atoms with the same global
index, so the copy's match-by-index finds two candidates. -/
def c9dup : Structure :=
  { building_units :=
      [{ name := "M"
         atoms := [{ element := "C", index := 0 }, { element := "O", index := 0 }] }]
    natoms := 2
    bondsRef := 0 }

/-- Candidate bond pair for the C6 witness: the open point of `egS`
paired with the single catalog point of `egAddBU`. -/
def c6bpair : ConnectPoint × ConnectPoint :=
  ({ index := 0, para := ⟨1, 0, 0⟩, perp := ⟨0, 0, 1⟩, bu_order := 0, order := 0,
     metal := true },
   { index := 0, para := ⟨-1, 0, 0⟩, perp := ⟨0, 0, 1⟩, bu_order := 0, order := 0 })

@[simp] theorem add_mk (a1 a2 a3 b1 b2 b3 : ℚ) :
    Vec3.mk a1 a2 a3 + Vec3.mk b1 b2 b3 = Vec3.mk (a1 + b1) (a2 + b2) (a3 + b3) := rfl

@[simp] theorem sub_mk (a1 a2 a3 b1 b2 b3 : ℚ) :
    Vec3.mk a1 a2 a3 - Vec3.mk b1 b2 b3 = Vec3.mk (a1 - b1) (a2 - b2) (a3 - b3) := rfl

@[simp] theorem neg_mk (a1 a2 a3 : ℚ) :
    -Vec3.mk a1 a2 a3 = Vec3.mk (-a1) (-a2) (-a3) := rfl

@[simp] theorem smul_mk (r a1 a2 a3 : ℚ) :
    r • Vec3.mk a1 a2 a3 = Vec3.mk (r * a1) (r * a2) (r * a3) := rfl

@[simp] theorem zero_vec_mk : (0 : Vec3) = Vec3.mk 0 0 0 := rfl

@[simp] theorem dot_mk (a1 a2 a3 b1 b2 b3 : ℚ) :
    dot (Vec3.mk a1 a2 a3) (Vec3.mk b1 b2 b3) = a1 * b1 + a2 * b2 + a3 * b3 := rfl

@[simp] theorem cross_mk (a1 a2 a3 b1 b2 b3 : ℚ) :
    cross (Vec3.mk a1 a2 a3) (Vec3.mk b1 b2 b3) =
      Vec3.mk (a2 * b3 - a3 * b2) (a3 * b1 - a1 * b3) (a1 * b2 - a2 * b1) := rfl

theorem vecAddSubCancel (a b : Vec3) : a + (b - a) = b := by
  cases a
  cases b
  simp only [sub_mk, add_mk, Vec3.mk.injEq]
  refine ⟨?_, ?_, ?_⟩ <;> ring

theorem vecZeroAdd (a : Vec3) : (0 : Vec3) + a = a := by
  cases a
  simp only [zero_vec_mk, add_mk, Vec3.mk.injEq]
  refine ⟨?_, ?_, ?_⟩ <;> ring

theorem vecSubZero (a : Vec3) : a - 0 = a := by
  cases a
  simp only [zero_vec_mk, sub_mk, Vec3.mk.injEq]
  refine ⟨?_, ?_, ?_⟩ <;> ring

theorem vecZeroSmul (a : Vec3) : (0 : ℚ) • a = (0 : Vec3) := by
  cases a
  simp only [zero_vec_mk, smul_mk, Vec3.mk.injEq]
  refine ⟨?_, ?_, ?_⟩ <;> ring

theorem dot_sub_left (a b c : Vec3) : dot (a - b) c = dot a c - dot b c := by
  cases a
  cases b
  cases c
  simp only [sub_mk, dot_mk]
  ring

theorem dot_smul_right (r : ℚ) (a b : Vec3) : dot a (r • b) = r * dot a b := by
  cases a
  cases b
  simp only [smul_mk, dot_mk]
  ring

theorem dot_comm (a b : Vec3) : dot a b = dot b a := by
  cases a
  cases b
  simp only [dot_mk]
  ring

theorem pySort2_comm (p q : ℤ × ℤ) : pySort2 p q = pySort2 q p := by
  rcases p with ⟨p1, p2⟩
  rcases q with ⟨q1, q2⟩
  simp only [pySort2, pairLt, decide_eq_true_eq]
  split_ifs with h1 h2 h2 <;> simp_all [Prod.mk.injEq] <;> omega

theorem pySort2_cases (p q : ℤ × ℤ) : pySort2 p q = (p, q) ∨ pySort2 p q = (q, p) := by
  simp only [pySort2]
  split_ifs <;> simp

theorem pySort2_sorted (p q : ℤ × ℤ) :
    (pySort2 p q).1.1 < (pySort2 p q).2.1 ∨
      ((pySort2 p q).1.1 = (pySort2 p q).2.1 ∧ (pySort2 p q).1.2 ≤ (pySort2 p q).2.2) := by
  rcases p with ⟨p1, p2⟩
  rcases q with ⟨q1, q2⟩
  simp only [pySort2, pairLt, decide_eq_true_eq]
  split_ifs with h1 <;> simp_all <;> omega

/-- C7: the symmetry label of a forming bond is order-independent —
`get_symmetry_info` applied to the two endpoints in either order yields
the same value — and it is the lexicographically sorted arrangement of
the two endpoint pairs `(owning-unit internal catalog index,
connect-point symmetry tag)`. -/
theorem c7_symmetry_label_order_independent (bu : BuildingUnit) (cp : ConnectPoint)
    (add_bu : BuildingUnit) (add_cp : ConnectPoint) :
    get_symmetry_info bu cp add_bu add_cp = get_symmetry_info add_bu add_cp bu cp ∧
    ((get_symmetry_info bu cp add_bu add_cp =
        ((bu.internal_index, cp.symmetry), (add_bu.internal_index, add_cp.symmetry)) ∨
      get_symmetry_info bu cp add_bu add_cp =
        ((add_bu.internal_index, add_cp.symmetry), (bu.internal_index, cp.symmetry))) ∧
     ((get_symmetry_info bu cp add_bu add_cp).1.1 <
        (get_symmetry_info bu cp add_bu add_cp).2.1 ∨
      ((get_symmetry_info bu cp add_bu add_cp).1.1 =
         (get_symmetry_info bu cp add_bu add_cp).2.1 ∧
       (get_symmetry_info bu cp add_bu add_cp).1.2 ≤
         (get_symmetry_info bu cp add_bu add_cp).2.2))) := by
  exact ⟨pySort2_comm _ _, pySort2_cases _ _, pySort2_sorted _ _⟩

/-- C3 counterexample: `spec_compatible` never reads the catalog-side
point's `bonded` flag, so it admits a pair whose second point is already
bonded — the claim that both checks admit a pair only when both points
are unbonded is false for `spec_compatible`. -/
theorem c3_counterexample :
    spec_compatible c3cpA c3cpB = true ∧ c3cpB.bonded = true := by
  exact ⟨rfl, rfl⟩

/-- C3 amended: `valid_bond` admits a pair only if both points are
unbonded, the symmetric special/constraint tag match holds, and — when
neither point carries a special tag — the owning units' metal flags
differ; `spec_compatible` admits a pair only under the same tag and
metal-flag conditions (through the points' metal flags, which mirror
their owning units'), but it checks only the placed point's bonded flag;
the catalog-side point is a fresh copy that is never bonded in the
search. -/
theorem c3_amended (bu1 : BuildingUnit) (cp1 : ConnectPoint)
    (bu2 : BuildingUnit) (cp2 : ConnectPoint)
    (hm1 : cp1.metal = bu1.metal) (hm2 : cp2.metal = bu2.metal) :
    (valid_bond bu1 cp1 bu2 cp2 = true →
      (cp1.bonded = false ∧ cp2.bonded = false) ∧
      (cp1.special = cp2.constraint ∨ cp2.special = cp1.constraint) ∧
      (cp1.special = none ∧ cp2.special = none → bu1.metal ≠ bu2.metal)) ∧
    (spec_compatible cp1 cp2 = true →
      cp1.bonded = false ∧
      (cp1.special = cp2.constraint ∨ cp2.special = cp1.constraint) ∧
      (cp1.special = none ∧ cp2.special = none → bu1.metal ≠ bu2.metal)) := by
  constructor
  · intro h
    unfold valid_bond at h
    by_cases hb : (!cp1.bonded && !cp2.bonded) = true
    · rw [if_pos hb] at h
      by_cases ht : cp1.special = cp2.constraint ∨ cp1.constraint = cp2.special
      · rw [if_pos ht] at h
        have hbonded : cp1.bonded = false ∧ cp2.bonded = false := by
          simpa [Bool.and_eq_true, Bool.not_eq_true'] using hb
        refine ⟨hbonded, ?_, ?_⟩
        · rcases ht with h1 | h1
          · exact Or.inl h1
          · exact Or.inr h1.symm
        · intro hnone hmeq
          rw [if_pos hnone.1, if_pos hmeq] at h
          simp at h
      · rw [if_neg ht] at h
        simp at h
    · rw [if_neg hb] at h
      simp at h
  · intro h
    unfold spec_compatible at h
    by_cases hb : cp1.bonded = true
    · rw [if_pos hb] at h
      simp at h
    · rw [if_neg hb] at h
      by_cases ht : cp1.special = cp2.constraint ∨ cp2.special = cp1.constraint
      · rw [if_pos ht] at h
        refine ⟨by simpa using hb, ht, ?_⟩
        intro hnone hmeq
        have hc : cp1.special = none ∧ cp2.special = none ∧ cp1.metal = cp2.metal :=
          ⟨hnone.1, hnone.2, by rw [hm1, hm2, hmeq]⟩
        rw [if_pos hc] at h
        simp at h
      · rw [if_neg ht] at h
        simp at h

/-- C3 witness: the amended theorem applied at a concrete admissible
pair, with its metal-flag hypotheses discharged by evaluation. -/
theorem c3_witness :
    c3cpM.metal = c3buM.metal ∧ c3cpO.metal = c3buO.metal ∧
    (valid_bond c3buM c3cpM c3buO c3cpO = true →
      (c3cpM.bonded = false ∧ c3cpO.bonded = false) ∧
      (c3cpM.special = c3cpO.constraint ∨ c3cpO.special = c3cpM.constraint) ∧
      (c3cpM.special = none ∧ c3cpO.special = none → c3buM.metal ≠ c3buO.metal)) := by
  exact ⟨by decide, by decide, (c3_amended c3buM c3cpM c3buO c3cpO (by decide) (by decide)).1⟩

/-- C4 counterexample: with one accepted vector (1,0,0), the candidate
(-1,0,0) is linearly dependent on it (anti-parallel), yet `valid_vector`
accepts it — the parallel test compares the dot product against 1 only,
so a dot product of -1 passes. -/
theorem c4_counterexample :
    c4cell1.valid_vector ⟨-1, 0, 0⟩ = true ∧
    (⟨-1, 0, 0⟩ : Vec3) = (-1 : ℚ) • c4cell1.lattice.getD 0 0 := by
  constructor
  · with_unfolding_all decide
  · with_unfolding_all decide

/-- C4 amended: `valid_vector` rejects a candidate whose normalized form
has dot product `allclose` to 1 with some accepted normalized vector
(parallel — but an anti-parallel candidate, dot product -1, is not
caught by this test), rejects a candidate coplanar with the first two
accepted vectors when exactly two are accepted, and rejects every
candidate once three vectors are accepted, so a 4th vector is never
accepted. -/
theorem c4_amended (c : Cell) (v : Vec3) :
    ((c.nlattice.any fun cellv => isClose (dot cellv (unit_vector v)) 1) = true →
        c.valid_vector v = false) ∧
    (c.index = 2 → c.planar (unit_vector v) = true → c.valid_vector v = false) ∧
    (c.index = 3 → c.valid_vector v = false) := by
  by_cases hany : (c.nlattice.any fun cellv => isClose (dot cellv (unit_vector v)) 1) = true
  · have hv : c.valid_vector v = false := by
      simp only [Cell.valid_vector]
      rw [if_pos hany]
    exact ⟨fun _ => hv, fun _ _ => hv, fun _ => hv⟩
  · refine ⟨fun h => absurd h hany, ?_, ?_⟩
    · intro h2 hpl
      simp only [Cell.valid_vector]
      rw [if_neg hany, if_pos h2, if_pos hpl]
    · intro h3
      have h2 : ¬(c.index = 2) := by omega
      simp only [Cell.valid_vector]
      rw [if_neg hany, if_neg h2, if_pos h3]

/-- C4 witness: the amended theorem applied at a fully periodic concrete
cell — the 4th vector is rejected. -/
theorem c4_witness : c4cell3.index = 3 ∧ c4cell3.valid_vector ⟨1, 1, 1⟩ = false := by
  exact ⟨by decide, (c4_amended c4cell3 ⟨1, 1, 1⟩).2.2 (by decide)⟩

theorem dot_add_left (a b c : Vec3) : dot (a + b) c = dot a c + dot b c := by
  cases a
  cases b
  cases c
  simp only [add_mk, dot_mk]
  ring

theorem dot_sub_right (a b c : Vec3) : dot a (b - c) = dot a b - dot a c := by
  cases a
  cases b
  cases c
  simp only [sub_mk, dot_mk]
  ring

theorem dot_smul_left (r : ℚ) (a b : Vec3) : dot (r • a) b = r * dot a b := by
  cases a
  cases b
  simp only [smul_mk, dot_mk]
  ring

theorem triple_rot (a b c : Vec3) : dot a (cross b c) = dot b (cross c a) := by
  cases a
  cases b
  cases c
  simp only [cross_mk, dot_mk]
  ring

theorem dot_cross_self_left (a b : Vec3) : dot a (cross a b) = 0 := by
  cases a
  cases b
  simp only [cross_mk, dot_mk]
  ring

theorem dot_cross_self_right (a b : Vec3) : dot b (cross a b) = 0 := by
  cases a
  cases b
  simp only [cross_mk, dot_mk]
  ring

theorem rintQ_eq_zero {q : ℚ} (h1 : -(1 / 2) ≤ q) (h2 : q ≤ 1 / 2) : rintQ q = 0 := by
  have h3 := Int.floor_le q
  have h4 := Int.lt_floor_add_one q
  have hfl : ⌊q⌋ = 0 ∨ ⌊q⌋ = -1 := by
    have h5 : (⌊q⌋ : ℚ) < 1 := lt_of_le_of_lt (le_trans h3 h2) (by norm_num)
    have h6 : (-2 : ℚ) < ⌊q⌋ := by linarith
    have h7 : ⌊q⌋ < 1 := by exact_mod_cast h5
    have h8 : (-2 : ℤ) < ⌊q⌋ := by exact_mod_cast h6
    omega
  simp only [rintQ]
  rcases hfl with h | h <;> rw [h]
  · split_ifs with hf1 hf2 hev
    · rfl
    · exfalso
      push_cast at hf2
      linarith
    · rfl
    · exact absurd (by decide) hev
  · split_ifs with hf1 hf2 hev
    · exfalso
      push_cast at hf1
      linarith
    · decide
    · exact absurd hev (by decide)
    · decide

theorem rintQ_residual (q : ℚ) :
    -(1 / 2) ≤ q - (rintQ q : ℚ) ∧ q - (rintQ q : ℚ) ≤ 1 / 2 := by
  have h3 := Int.floor_le q
  have h4 := Int.lt_floor_add_one q
  simp only [rintQ]
  split_ifs with hf1 hf2 hev
  · constructor <;> linarith
  · push_cast
    constructor <;> linarith
  · have he : q - (⌊q⌋ : ℚ) = 1 / 2 := le_antisymm (not_lt.mp hf2) (not_lt.mp hf1)
    constructor <;> linarith
  · have he : q - (⌊q⌋ : ℚ) = 1 / 2 := le_antisymm (not_lt.mp hf2) (not_lt.mp hf1)
    push_cast
    constructor <;> linarith

theorem rintQ_sub_rintQ (q : ℚ) : rintQ (q - (rintQ q : ℚ)) = 0 :=
  rintQ_eq_zero (rintQ_residual q).1 (rintQ_residual q).2

theorem dot_sub_comb1 (w a u : Vec3) (r1 : ℚ) :
    dot (w - r1 • a) u = dot w u - r1 * dot a u := by
  cases w
  cases a
  cases u
  simp only [smul_mk, sub_mk, dot_mk]
  ring

theorem dot_sub_comb2 (w a b u : Vec3) (r1 r2 : ℚ) :
    dot (w - (r1 • a + r2 • b)) u = dot w u - r1 * dot a u - r2 * dot b u := by
  cases w
  cases a
  cases b
  cases u
  simp only [smul_mk, add_mk, sub_mk, dot_mk]
  ring

theorem dot_sub_comb3 (w a b c u : Vec3) (r1 r2 r3 : ℚ) :
    dot (w - (r1 • a + r2 • b + r3 • c)) u
      = dot w u - r1 * dot a u - r2 * dot b u - r3 * dot c u := by
  cases w
  cases a
  cases b
  cases c
  cases u
  simp only [smul_mk, add_mk, sub_mk, dot_mk]
  ring

theorem mkZeroAdd (a : Vec3) : Vec3.mk 0 0 0 + a = a := by
  cases a
  simp only [add_mk, Vec3.mk.injEq]
  refine ⟨?_, ?_, ?_⟩ <;> ring

theorem subMkZero (a : Vec3) : a - Vec3.mk 0 0 0 = a := by
  cases a
  simp only [sub_mk, Vec3.mk.injEq]
  refine ⟨?_, ?_, ?_⟩ <;> ring

/-- C8: `periodic_shift` is idempotent on any well-formed cell — shifting
an already-shifted vector returns it unchanged — and it is the identity
while no lattice vectors have been accepted. -/
theorem c8_periodic_shift_idempotent (c : Cell) (v : Vec3) (hwf : cellWF c = true) :
    c.periodic_shift (c.periodic_shift v) = c.periodic_shift v ∧
    (c.index = 0 → c.periodic_shift v = v) := by
  rcases c with ⟨lat, nlat, ilat, orig⟩
  simp only [cellWF, Bool.and_eq_true, beq_iff_eq] at hwf
  obtain ⟨hil, hrank⟩ := hwf
  rcases lat with _ | ⟨a, _ | ⟨b, _ | ⟨c3, _ | ⟨d, rest⟩⟩⟩⟩
  · constructor
    · simp [Cell.periodic_shift]
    · intro _
      simp [Cell.periodic_shift]
  · have hd : dot a a ≠ 0 := by simpa using hrank
    subst hil
    have hstep : ∀ w : Vec3,
        Cell.periodic_shift ⟨[a], nlat, get_inverse [a], orig⟩ w
          = w - (rintQ (dot w ((1 / dot a a) • a)) : ℚ) • a := by
      intro w
      simp [Cell.periodic_shift, get_inverse, vecZeroAdd, mkZeroAdd]
    constructor
    · simp only [hstep]
      have hone : dot a ((1 / dot a a) • a) = 1 := by
        rw [dot_smul_right]
        field_simp
      rw [dot_sub_comb1, hone, mul_one, rintQ_sub_rintQ]
      simp [vecZeroSmul, vecSubZero, subMkZero]
    · intro h0
      simp [Cell.index] at h0
  · have hd : dot a a * dot b b - dot a b * dot a b ≠ 0 := by simpa using hrank
    subst hil
    have hstep : ∀ w : Vec3,
        Cell.periodic_shift ⟨[a, b], nlat, get_inverse [a, b], orig⟩ w
          = w - ((rintQ (dot w ((1 / (dot a a * dot b b - dot a b * dot a b)) •
                (dot b b • a - dot a b • b))) : ℚ) • a +
              (rintQ (dot w ((1 / (dot a a * dot b b - dot a b * dot a b)) •
                (dot a a • b - dot a b • a))) : ℚ) • b) := by
      intro w
      simp [Cell.periodic_shift, get_inverse, vecZeroAdd, mkZeroAdd]
    have h11 : dot a ((1 / (dot a a * dot b b - dot a b * dot a b)) •
        (dot b b • a - dot a b • b)) = 1 := by
      cases a
      cases b
      simp only [smul_mk, sub_mk, dot_mk] at hd ⊢
      field_simp
      ring
    have h21 : dot b ((1 / (dot a a * dot b b - dot a b * dot a b)) •
        (dot b b • a - dot a b • b)) = 0 := by
      cases a
      cases b
      simp only [smul_mk, sub_mk, dot_mk] at hd ⊢
      field_simp
      ring
    have h12 : dot a ((1 / (dot a a * dot b b - dot a b * dot a b)) •
        (dot a a • b - dot a b • a)) = 0 := by
      cases a
      cases b
      simp only [smul_mk, sub_mk, dot_mk] at hd ⊢
      field_simp
      ring
    have h22 : dot b ((1 / (dot a a * dot b b - dot a b * dot a b)) •
        (dot a a • b - dot a b • a)) = 1 := by
      cases a
      cases b
      simp only [smul_mk, sub_mk, dot_mk] at hd ⊢
      field_simp
      ring
    constructor
    · simp only [hstep]
      rw [dot_sub_comb2, dot_sub_comb2, h11, h21, h12, h22]
      simp only [mul_one, mul_zero, sub_zero]
      rw [rintQ_sub_rintQ, rintQ_sub_rintQ]
      simp [vecZeroSmul, vecZeroAdd, vecSubZero, mkZeroAdd, subMkZero]
    · intro h0
      simp [Cell.index] at h0
  · have hd : dot a (cross b c3) ≠ 0 := by simpa using hrank
    subst hil
    have hstep : ∀ w : Vec3,
        Cell.periodic_shift ⟨[a, b, c3], nlat, get_inverse [a, b, c3], orig⟩ w
          = w - ((rintQ (dot w ((1 / dot a (cross b c3)) • cross b c3)) : ℚ) • a +
              (rintQ (dot w ((1 / dot a (cross b c3)) • cross c3 a)) : ℚ) • b +
              (rintQ (dot w ((1 / dot a (cross b c3)) • cross a b)) : ℚ) • c3) := by
      intro w
      simp [Cell.periodic_shift, get_inverse, vecZeroAdd, mkZeroAdd]
    have e11 : dot a ((1 / dot a (cross b c3)) • cross b c3) = 1 := by
      rw [dot_smul_right]
      field_simp
    have e21 : dot b ((1 / dot a (cross b c3)) • cross b c3) = 0 := by
      rw [dot_smul_right, dot_cross_self_left, mul_zero]
    have e31 : dot c3 ((1 / dot a (cross b c3)) • cross b c3) = 0 := by
      rw [dot_smul_right, dot_cross_self_right, mul_zero]
    have e12 : dot a ((1 / dot a (cross b c3)) • cross c3 a) = 0 := by
      rw [dot_smul_right, dot_cross_self_right, mul_zero]
    have e22 : dot b ((1 / dot a (cross b c3)) • cross c3 a) = 1 := by
      cases a
      cases b
      cases c3
      simp only [cross_mk, dot_mk] at hd ⊢
      field_simp
      ring
    have e32 : dot c3 ((1 / dot a (cross b c3)) • cross c3 a) = 0 := by
      rw [dot_smul_right, dot_cross_self_left, mul_zero]
    have e13 : dot a ((1 / dot a (cross b c3)) • cross a b) = 0 := by
      rw [dot_smul_right, dot_cross_self_left, mul_zero]
    have e23 : dot b ((1 / dot a (cross b c3)) • cross a b) = 0 := by
      rw [dot_smul_right, dot_cross_self_right, mul_zero]
    have e33 : dot c3 ((1 / dot a (cross b c3)) • cross a b) = 1 := by
      cases a
      cases b
      cases c3
      simp only [cross_mk, dot_mk] at hd ⊢
      field_simp
      ring
    constructor
    · simp only [hstep]
      rw [dot_sub_comb3, dot_sub_comb3, dot_sub_comb3,
        e11, e21, e31, e12, e22, e32, e13, e23, e33]
      simp only [mul_one, mul_zero, sub_zero]
      rw [rintQ_sub_rintQ, rintQ_sub_rintQ, rintQ_sub_rintQ]
      simp [vecZeroSmul, vecZeroAdd, vecSubZero, mkZeroAdd, subMkZero]
    · intro h0
      simp [Cell.index] at h0
  · exact absurd hrank (by simp)

/-- C8 witness: the idempotence theorem applied at a concrete cell and
vector, with the well-formedness hypothesis discharged by evaluation. -/
theorem c8_witness :
    cellWF c8cellW = true ∧
    c8cellW.periodic_shift (c8cellW.periodic_shift ⟨3, 1, 0⟩) =
      c8cellW.periodic_shift ⟨3, 1, 0⟩ :=
  ⟨by with_unfolding_all decide,
   (c8_periodic_shift_idempotent c8cellW ⟨3, 1, 0⟩ (by with_unfolding_all decide)).1⟩

/-- C5 amended: `snap_to` always brings the moved point's position
exactly onto the target point's position (in both branches, for any
rotation), and when the required rotation angle is within numerical
tolerance of zero it applies a pure translation by the position
difference and leaves the alignment vectors untouched; but the moved
point's parallel vector is *not* in general anti-parallel to the target's
parallel vector after the rotation branch (see the counterexample). -/
theorem c5_amended (bu : BuildingUnit) (p q : ConnectPoint) :
    (snapCP bu p q p).coordinates = q.coordinates ∧
    (angle_is_zero (calc_angle p.para (-q.para)).1 (calc_angle p.para (-q.para)).2 = true →
      (snap_to bu p q).atoms = bu.atoms.map (fun a =>
        { a with coordinates := a.coordinates + (q.coordinates - p.coordinates) }) ∧
      (snap_to bu p q).connect_points = bu.connect_points.map (fun cp =>
        { cp with coordinates := cp.coordinates + (q.coordinates - p.coordinates) })) := by
  by_cases hz : angle_is_zero (calc_angle p.para (-q.para)).1
      (calc_angle p.para (-q.para)).2 = true
  · have hsd : snapData bu p q =
        (true, { lin := id, tr := 0 }, q.coordinates - p.coordinates) := by
      unfold snapData
      rw [if_pos hz]
    constructor
    · unfold snapCP
      rw [hsd]
      simp [vecAddSubCancel]
    · intro _
      constructor
      · unfold snap_to snapAtom
        rw [hsd]
      · unfold snap_to snapCP
        rw [hsd]
  · have hsd : snapData bu p q =
        (false,
         rotation_matrix (unit_vector (cross p.para q.para))
           (calc_angle p.para (-q.para)).1 (calc_angle p.para (-q.para)).2
           (if isCloseVecZero bu.COM then none else some bu.COM),
         q.coordinates -
           (rotation_matrix (unit_vector (cross p.para q.para))
             (calc_angle p.para (-q.para)).1 (calc_angle p.para (-q.para)).2
             (if isCloseVecZero bu.COM then none else some bu.COM)).apply
             p.coordinates) := by
      unfold snapData
      rw [if_neg hz]
    constructor
    · unfold snapCP
      rw [hsd]
      simp [vecAddSubCancel]
    · intro h
      exact absurd h hz

/-- C5 witness: the amended theorem applied at a concrete zero-angle
input — the moved point lands on the target and the unit is purely
translated. -/
theorem c5_witness :
    angle_is_zero (calc_angle c5pW.para (-c5qW.para)).1
      (calc_angle c5pW.para (-c5qW.para)).2 = true ∧
    (snapCP c5buW c5pW c5qW c5pW).coordinates = c5qW.coordinates ∧
    (snap_to c5buW c5pW c5qW).atoms = c5buW.atoms.map (fun a =>
      { a with coordinates := a.coordinates + (c5qW.coordinates - c5pW.coordinates) }) :=
  ⟨by with_unfolding_all decide, (c5_amended c5buW c5pW c5qW).1,
   ((c5_amended c5buW c5pW c5qW).2 (by with_unfolding_all decide)).1⟩

/-- C5 counterexample: after `snap_to`, the moved point's parallel vector
is (-3/5, 4/5, 0) while the anti-parallel direction of the target's is
(-3/5, -4/5, 0); their unit dot product with the anti-parallel target is
-7/25, nowhere near 1, so the two vectors are not anti-parallel within
any floating tolerance — the rotation is taken about
`cross(p.para, q.para)` with the angle between `p.para` and `-q.para`,
which lands `p.para` at `q.para - 2 cos α · p.para`, not at `-q.para`. -/
theorem c5_counterexample :
    ((snap_to c5buX c5pX c5qX).connect_points.getD 0 default).para = ⟨-3 / 5, 4 / 5, 0⟩ ∧
    isClose (dot ((snap_to c5buX c5pX c5qX).connect_points.getD 0 default).para
      (-c5qX.para)) 1 = false := by
  constructor
  · with_unfolding_all decide
  · with_unfolding_all decide

theorem setCP_bu_length (s : Structure) (i j : ℕ) (cp : ConnectPoint) :
    (setCP s i j cp).building_units.length = s.building_units.length := by
  simp [setCP]

theorem getBU_setCP_ne (s : Structure) (i j i' : ℕ) (cp : ConnectPoint)
    (h : i ≠ i') : getBU (setCP s i j cp) i' = getBU s i' := by
  simp [getBU, setCP, List.getD_eq_getElem?_getD, List.getElem?_set_ne, h]

theorem getBU_setCP_self (s : Structure) (i j : ℕ) (cp : ConnectPoint)
    (hi : i < s.building_units.length) :
    getBU (setCP s i j cp) i =
      { getBU s i with connect_points := (getBU s i).connect_points.set j cp } := by
  simp [getBU, setCP, List.getD_eq_getElem?_getD, List.getElem?_set_self, hi]

theorem getCP_setCP_self (s : Structure) (i j : ℕ) (cp : ConnectPoint)
    (hi : i < s.building_units.length)
    (hj : j < (getBU s i).connect_points.length) :
    getCP (setCP s i j cp) i j = cp := by
  simp [getCP, getBU_setCP_self s i j cp hi, List.getD_eq_getElem?_getD,
    List.getElem?_set_self, hj]

theorem getCP_setCP_ne (s : Structure) (i j i' j' : ℕ) (cp : ConnectPoint)
    (hi : i < s.building_units.length)
    (h : i ≠ i' ∨ j ≠ j') :
    getCP (setCP s i j cp) i' j' = getCP s i' j' := by
  by_cases hii : i = i'
  · subst hii
    have hj : j ≠ j' := by
      rcases h with h | h
      · exact absurd rfl h
      · exact h
    simp [getCP, getBU_setCP_self s i j cp hi, List.getD_eq_getElem?_getD,
      List.getElem?_set_ne, hj]
  · simp [getCP, getBU_setCP_ne s i j i' cp hii]

theorem setCP_cps_length (s : Structure) (i j i' : ℕ) (cp : ConnectPoint)
    (hi : i < s.building_units.length) :
    (getBU (setCP s i j cp) i').connect_points.length =
      (getBU s i').connect_points.length := by
  by_cases hii : i = i'
  · subst hii
    simp [getBU_setCP_self s i j cp hi]
  · simp [getBU_setCP_ne s i j i' cp hii]

/-- C10: the symmetry label computed by `Generate.get_symmetry_info` and
the `bond_label` that `Structure.update_connectivities` assigns to both
connect points, when invoked with the same arguments, are the same
value — the two independently coded label computations implement the
same function, so the search's deduplication key always matches the
label stored on the bonded points. -/
theorem c10_update_label_refines_symmetry_info (h : Heap) (s : Structure)
    (bu add_bu : BuildingUnit) (i1 j1 i2 j2 : ℕ)
    (hi1 : i1 < s.building_units.length)
    (hj1 : j1 < (getBU s i1).connect_points.length)
    (hi2 : i2 < s.building_units.length)
    (hj2 : j2 < (getBU s i2).connect_points.length) :
    (getCP (update_connectivities h s bu i1 j1 add_bu i2 j2).2 i1 j1).bond_label =
      some (get_symmetry_info bu (getCP s i1 j1) add_bu (getCP s i2 j2)) ∧
    (getCP (update_connectivities h s bu i1 j1 add_bu i2 j2).2 i2 j2).bond_label =
      some (get_symmetry_info bu (getCP s i1 j1) add_bu (getCP s i2 j2)) := by
  have hres : (update_connectivities h s bu i1 j1 add_bu i2 j2).2 =
      setCP
        (setCP s i1 j1 (bondedWith (getCP s i1 j1)
          (get_symmetry_info bu (getCP s i1 j1) add_bu (getCP s i2 j2))))
        i2 j2
        (bondedWith (getCP s i2 j2)
          (get_symmetry_info bu (getCP s i1 j1) add_bu (getCP s i2 j2))) := rfl
  rw [hres]
  have hi1' : i1 < (setCP s i1 j1 (bondedWith (getCP s i1 j1)
      (get_symmetry_info bu (getCP s i1 j1) add_bu
        (getCP s i2 j2)))).building_units.length := by
    rw [setCP_bu_length]
    exact hi1
  have hi2' : i2 < (setCP s i1 j1 (bondedWith (getCP s i1 j1)
      (get_symmetry_info bu (getCP s i1 j1) add_bu
        (getCP s i2 j2)))).building_units.length := by
    rw [setCP_bu_length]
    exact hi2
  have hj2' : j2 < (getBU (setCP s i1 j1 (bondedWith (getCP s i1 j1)
      (get_symmetry_info bu (getCP s i1 j1) add_bu (getCP s i2 j2))))
        i2).connect_points.length := by
    rw [setCP_cps_length s i1 j1 i2 _ hi1]
    exact hj2
  constructor
  · by_cases hsame : i2 = i1 ∧ j2 = j1
    · obtain ⟨hii, hjj⟩ := hsame
      subst hii
      subst hjj
      rw [getCP_setCP_self _ i2 j2 _ hi2' hj2']
      rfl
    · have hne : i2 ≠ i1 ∨ j2 ≠ j1 := by tauto
      rw [getCP_setCP_ne _ i2 j2 i1 j1 _ hi2' hne]
      rw [getCP_setCP_self s i1 j1 _ hi1 hj1]
      rfl
  · rw [getCP_setCP_self _ i2 j2 _ hi2' hj2']
    rfl

/-- C10 witness: the refinement theorem applied at a concrete two-unit
structure, bounds discharged by evaluation. -/
theorem c10_witness :
    0 < c10s.building_units.length ∧ 1 < c10s.building_units.length ∧
    0 < (getBU c10s 0).connect_points.length ∧
    0 < (getBU c10s 1).connect_points.length ∧
    ((getCP (update_connectivities [[]] c10s c10buA 0 0 c10buB 1 0).2 0 0).bond_label =
        some (get_symmetry_info c10buA (getCP c10s 0 0) c10buB (getCP c10s 1 0)) ∧
      (getCP (update_connectivities [[]] c10s c10buA 0 0 c10buB 1 0).2 1 0).bond_label =
        some (get_symmetry_info c10buA (getCP c10s 0 0) c10buB (getCP c10s 1 0))) :=
  ⟨by decide, by decide, by decide, by decide,
   c10_update_label_refines_symmetry_info [[]] c10s c10buA c10buB 0 0 1 0
     (by decide) (by decide) (by decide) (by decide)⟩

/-- C2: evaluating `insert` at the concrete input shows the atom indices
offset by the parent's atom count (2) and the atom count updated, but
every atom's bond-reference list unchanged — the source loop
`for bidx in atom.bonds: bidx += self.natoms` rebinds the loop variable
instead of updating the list, contradicting the claim (and the code's
own comment) that bond references are offset. -/
theorem c2_insert_reindex_eval :
    egS.natoms = 2 ∧
    ((getBU (insert egHeap egS 0 0 egAddBU 0).2 1).atoms.map fun a => a.index) = [2, 3] ∧
    ((getBU (insert egHeap egS 0 0 egAddBU 0).2 1).atoms.map fun a => a.bonds) =
      [[1], [0]] ∧
    (insert egHeap egS 0 0 egAddBU 0).2.natoms = 4 := by
  refine ⟨rfl, ?_, ?_, ?_⟩ <;> with_unfolding_all decide

/-- C1: `Structure.__copy__` leaves the duplicate holding the *same*
global bond table as the parent (the shallow `__dict__` copy; the block
that would rebuild `self.bonds` is commented out although the method's
own docstring lists it among the references to fix), so inserting into
the copy appends to the parent's table: after the insertion the table
the parent sees has changed. -/
theorem c1_copy_shares_bond_table :
    (copyStructure egS).2.bondsRef = egS.bondsRef ∧
    heapGet (insert egHeap (copyStructure egS).2 0 0 egAddBU 0).1 egS.bondsRef ≠
      heapGet egHeap egS.bondsRef := by
  constructor
  · rfl
  · with_unfolding_all decide

/-- C9: in both claimed situations the `error(...)` call is
`logging.error`, which logs and returns — the run does not stop.  The
parent-linking loop logs "Multiple building units with the same name!"
and then links the unit to the *first* same-named entry and finishes,
returning a complete database; the structure copy logs "problem copying
atoms" for each ambiguous match and still returns a complete duplicate
built from the first matches. -/
theorem c9_error_is_log_only_eval :
    (readfile_link [c9dbA1, c9dbA2, c9dbB]).1 =
      ["Multiple building units with the same name!"] ∧
    (readfile_link [c9dbA1, c9dbA2, c9dbB]).2.length = 2 ∧
    ((readfile_link [c9dbA1, c9dbA2, c9dbB]).2.getD 0 default).specialbu.length = 1 ∧
    (copyStructure c9dup).1 = ["problem copying atoms", "problem copying atoms"] ∧
    (copyStructure c9dup).2.building_units.length = 1 ∧
    ((getBU (copyStructure c9dup).2 0).atoms.map fun a => a.element) = ["C", "C"] := by
  refine ⟨?_, ?_, ?_, ?_, ?_, ?_⟩ <;> with_unfolding_all decide

/-- C6: the structure-count ceiling stops the search without a structure
and without an error.  The count the run tracks is
`len(add_list) + len(structures)` — the structures surviving in the
current frontier plus those accumulated for the next generation.
Conjunct 1: whenever that count already exceeds 20000 and the next
candidate is not dedup-skipped and does not succeed, the candidate loop
returns the capped outcome immediately.  Conjunct 2: a stopping outcome
of the candidate loop propagates through the generation loop.  Conjunct
3: a stopping outcome of the generation loop is the final result of
`sampling_loop` (the embedded `while` loop of `exhaustive_sampling`).
Conjunct 4: the capped outcome carries no structure — and, the model
being a total function, the search terminates without raising. -/
theorem c6_cap_stops_search :
    (∀ (blocks : List BuildingUnit) (h : Heap) (n : ℕ) (st : Structure)
        (b : ConnectPoint × ConnectPoint) (rest : List (ConnectPoint × ConnectPoint))
        (symtrack : List (List SymLabel)) (addl : List Structure),
      ((copyStructure st).2.sym_id ++
          [get_symmetry_info
            ((copyStructure st).2.building_units.getD b.1.bu_order default)
            (((copyStructure st).2.building_units.getD b.1.bu_order
                default).connect_points.getD b.1.order default)
            (blocks.getD b.2.bu_order default)
            ((blocks.getD b.2.bu_order default).connect_points.getD b.2.order default)])
          ∉ symtrack →
      (saturated (insert h (copyStructure st).2 b.1.bu_order b.1.order
            (blocks.getD b.2.bu_order default) b.2.order).2 &&
          (insert h (copyStructure st).2 b.1.bu_order b.1.order
            (blocks.getD b.2.bu_order default) b.2.order).2.cell.index == 3) = false →
      20000 < addl.length + n →
      try_bonds blocks h n st (b :: rest) symtrack addl = .stop .cappedOut) ∧
    (∀ (blocks : List BuildingUnit) (h : Heap) (n : ℕ) (st : Structure)
        (rest : List Structure) (symtrack : List (List SymLabel))
        (addl : List Structure) (r : SearchResult),
      try_bonds blocks h n st
          (gen_bondlist (st.building_units.flatMap fun bu => bu.connect_points)
            (blocks.flatMap fun bu => bu.connect_points)) symtrack addl = .stop r →
      gen_structs blocks h n (st :: rest) symtrack addl = .stop r) ∧
    (∀ (fuel : ℕ) (blocks : List BuildingUnit) (h : Heap)
        (structures : List Structure) (r : SearchResult),
      gen_structs blocks h structures.length structures [] [] = .stop r →
      sampling_loop (fuel + 1) blocks h structures = r) ∧
    (∀ s' : Structure, SearchResult.cappedOut ≠ SearchResult.found s') := by
  refine ⟨?_, ?_, ?_, ?_⟩
  · intro blocks h n st b rest symtrack addl hdedup hnosucc hcap
    simp only [try_bonds]
    rw [if_neg hdedup]
    split_ifs with h1 h2 h3
    · rfl
    · exact absurd h2 (by rw [hnosucc]; decide)
    · rfl
    · exfalso
      simp only [List.length_append, List.length_singleton] at h3
      omega
  · intro blocks h n st rest symtrack addl r htb
    simp only [gen_structs]
    rw [htb]
  · intro fuel blocks h structures r hgen
    simp only [sampling_loop]
    rw [hgen]
  · intro s' heq
    exact SearchResult.noConfusion heq

/-- C6 witness: the cap theorem's first conjunct applied at a concrete
state whose frontier count (20001) already exceeds the ceiling — the
candidate loop stops with the capped outcome. -/
theorem c6_witness :
    try_bonds [egAddBU] egHeap 20001 egS [c6bpair] [] [] =
      StepRes.stop SearchResult.cappedOut :=
  c6_cap_stops_search.1 [egAddBU] egHeap 20001 egS c6bpair [] [] []
    (by simp) (by with_unfolding_all decide) (by decide)

end Genstruct
